import Mathlib

/-!
Verification of the mutation-dispatch and row-state-machine core of a
single-list task tracker (source: `src/app/routes/index.tsx`).

The embedding models:
* `FormData` as an association list of string keys to form values
  (a value is either text or a file), with `get` returning the first
  value bound to a key, or nothing;
* JavaScript `parseInt(s, 10)` (skip leading whitespace, optional sign,
  longest leading digit run, not-a-number when no digit is read);
* the two validators `validateId` and `validateName`;
* the store (`prisma.task`) as a list of tasks plus an autoincrement
  counter, with create / update / delete by id, where update and delete
  of an absent id fail (Prisma record-not-found);
* the route `action` switch as a pure function from a form-data map and
  a store to either an error or the updated store;
* the client editing/pending state: the `Index` component holds the
  single `editingId`, each `TaskItem` holds a pending flag for its
  in-flight mutation, and a `useEffect` in `TaskItem` calls
  `onFinishEditing` (which unconditionally clears `editingId`) whenever
  that row's pending flag is false after a change.
-/

namespace RemixTodo

/-- A value stored in a `FormData` entry: form fields are either text or
a file (`fd.get` in the source returns `string | File | null`). -/
inductive FormValue where
  | text (s : String)
  | file
deriving DecidableEq, Repr

/-- A submitted field map: association list from field names to values. -/
abbrev FormData := List (String × FormValue)

/-- `FormData.get` returns the first value bound to the key, like the
web `FormData.get` (or `null`, here `none`, when the key is absent). -/
def FormData.get (fd : FormData) (k : String) : Option FormValue :=
  (fd.find? (fun p => p.1 = k)).map (fun p => p.2)

/-- ASCII whitespace skipped by JavaScript `parseInt` before parsing. -/
def jsWhitespace (c : Char) : Bool :=
  c = ' ' || c = '\t' || c = '\n' || c = '\r' || c = '\x0b' || c = '\x0c'

/-- Consume the longest leading run of decimal digits, accumulating their
value; the accumulator is `none` while no digit has been read yet, so the
result is `none` exactly when the input starts with a non-digit. -/
def takeDigits : List Char → Option Nat → Option Nat
  | [], acc => acc
  | c :: cs, acc =>
    if c.isDigit then
      takeDigits cs (some (acc.getD 0 * 10 + (c.toNat - '0'.toNat)))
    else
      acc

/-- JavaScript `parseInt(s, 10)`: skip leading whitespace, read an
optional sign, then the longest run of decimal digits; the result is
not-a-number (`none`) when no digit is read. -/
def parseInt10 (s : String) : Option Int :=
  match s.data.dropWhile jsWhitespace with
  | '-' :: rest => (takeDigits rest none).map (fun n => -(n : Int))
  | '+' :: rest => (takeDigits rest none).map (fun n => (n : Int))
  | cs => (takeDigits cs none).map (fun n => (n : Int))

/-- An error escaping the route `action`: either an `Error(msg)` thrown
by the route code itself, or the store's record-not-found failure from
updating or deleting an id that does not exist. -/
inductive DispatchError where
  | thrown (msg : String)
  | notFound
deriving DecidableEq, Repr

/-- `validateId` from the source: the `id` field must be text (else
`Error("id must be string")`) and must parse under `parseInt(id, 10)`
(else `Error("id must be numeric string")`). -/
def validateId (fd : FormData) : Except DispatchError Int :=
  match fd.get "id" with
  | some (.text id) =>
    match parseInt10 id with
    | some intValue => .ok intValue
    | none => .error (.thrown "id must be numeric string")
  | _ => .error (.thrown "id must be string")

/-- `validateName` from the source: the `name` field must be text (else
`Error("name must be string")`) and must have positive length (else
`Error("name must be at least 1 characters")`). -/
def validateName (fd : FormData) : Except DispatchError String :=
  match fd.get "name" with
  | some (.text name) =>
    if name.length ≤ 0 then .error (.thrown "name must be at least 1 characters")
    else .ok name
  | _ => .error (.thrown "name must be string")

/-- A persisted task: integer id, name, done flag. -/
structure Task where
  id : Int
  name : String
  done : Bool
deriving DecidableEq, Repr

/-- The persistent store: the task table plus the autoincrement counter
the store uses to assign the next created id. -/
structure Store where
  tasks : List Task
  nextId : Int
deriving DecidableEq, Repr

/-- `prisma.task.findMany()` as used by the route loader: the full task
list. -/
def listTasks (s : Store) : List Task :=
  s.tasks

/-- `prisma.task.create`: append a new task with the store-assigned id
and the given fields, advancing the autoincrement counter. -/
def createTask (s : Store) (name : String) (done : Bool) : Store :=
  { tasks := s.tasks ++ [{ id := s.nextId, name := name, done := done }],
    nextId := s.nextId + 1 }

/-- `prisma.task.update` with `data: { name }`: replace the name of the
task with the given id, failing when no task has that id. -/
def updateTaskName (s : Store) (i : Int) (name : String) : Except DispatchError Store :=
  if s.tasks.any (fun t => t.id = i) then
    .ok { s with tasks := s.tasks.map (fun t => if t.id = i then { t with name := name } else t) }
  else .error .notFound

/-- `prisma.task.update` with `data: { done }`: replace the done flag of
the task with the given id, failing when no task has that id. -/
def setTaskDone (s : Store) (i : Int) (done : Bool) : Except DispatchError Store :=
  if s.tasks.any (fun t => t.id = i) then
    .ok { s with tasks := s.tasks.map (fun t => if t.id = i then { t with done := done } else t) }
  else .error .notFound

/-- `prisma.task.delete`: remove the task with the given id, failing
when no task has that id. -/
def deleteTask (s : Store) (i : Int) : Except DispatchError Store :=
  if s.tasks.any (fun t => t.id = i) then
    .ok { s with tasks := s.tasks.filter (fun t => ¬ t.id = i) }
  else .error .notFound

/-- The route `action`: switch on the `action` field. A file-valued or
absent discriminator matches no case and falls to the default. In the
`update` branch the argument object evaluates `data` (hence
`validateName`) before `where` (hence `validateId`), and the source's
shared `done`/`undone` block sets `done` to whether the discriminator
was the literal `"done"`. -/
def action (fd : FormData) (s : Store) : Except DispatchError Store :=
  match fd.get "action" with
  | some (.text a) =>
    if a = "add" then do
      let name ← validateName fd
      .ok (createTask s name false)
    else if a = "update" then do
      let name ← validateName fd
      let i ← validateId fd
      updateTaskName s i name
    else if a = "done" ∨ a = "undone" then do
      let i ← validateId fd
      setTaskDone s i (a = "done")
    else if a = "delete" then do
      let i ← validateId fd
      deleteTask s i
    else .error (.thrown "unknown action")
  | _ => .error (.thrown "unknown action")

/-- The client-side editing/pending state: the single `editingId` held
by `Index` via `useState`, and the set of row ids whose `fetcher` has an
in-flight submission (`isPending` in `TaskItem`). -/
structure ClientState where
  editingId : Option Int
  pending : List Int
deriving DecidableEq, Repr

/-- `isPending` of a row: its fetcher has an unresolved submission. -/
def isPending (cs : ClientState) (i : Int) : Bool :=
  cs.pending.contains i

/-- `isEditing` of a row: the global `editingId` equals this row's id. -/
def isEditing (cs : ClientState) (i : Int) : Bool :=
  cs.editingId = some i

/-- A user-interface event on a row: clicking the name area, pressing
Cancel, submitting a mutation from the row (checkbox toggle, update
form, or delete), or that row's in-flight mutation resolving. -/
inductive Event where
  | startEditing (i : Int)
  | cancel (i : Int)
  | submit (i : Int)
  | resolve (i : Int)
deriving DecidableEq, Repr

/-- One step of the client state under an event, from the source:
`onClickText` calls `onStartEditing` only when the row is not pending;
the Cancel button (disabled while pending) calls `onFinishEditing`,
which ignores its argument and sets `editingId` to null; submit controls
are disabled while the row is pending; and when a row's pending flag
returns to false its `useEffect` calls `onFinishEditing`, clearing the
global `editingId` whichever row was editing. -/
def step (cs : ClientState) : Event → ClientState
  | .startEditing i => if isPending cs i then cs else { cs with editingId := some i }
  | .cancel i => if isPending cs i then cs else { cs with editingId := none }
  | .submit i => if isPending cs i then cs else { cs with pending := i :: cs.pending }
  | .resolve i =>
    if isPending cs i then
      { editingId := none, pending := cs.pending.filter (fun j => ¬ j = i) }
    else cs

/-- The exit events the specification allows for row `r` leaving
`Editing`: an explicit cancel, the resolution of row `r`'s own mutation,
or a different row entering `Editing`. -/
def claimedExitEvent (r : Int) : Event → Bool
  | .cancel _ => true
  | .resolve j => j = r
  | .startEditing j => ¬ j = r
  | .submit _ => false

/-! ## Helper lemmas -/

theorem ebind_ok {α β : Type} (a : α) (f : α → Except DispatchError β) :
    (Except.ok a : Except DispatchError α) >>= f = f a := rfl

theorem ebind_error {α β : Type} (e : DispatchError) (f : α → Except DispatchError β) :
    (Except.error e : Except DispatchError α) >>= f = Except.error e := rfl

theorem validateName_eq_text (fd : FormData) (s : String)
    (h : fd.get "name" = some (.text s)) :
    validateName fd =
      if s.length ≤ 0 then .error (.thrown "name must be at least 1 characters")
      else .ok s := by
  unfold validateName
  rw [h]

theorem validateName_eq_none (fd : FormData) (h : fd.get "name" = none) :
    validateName fd = .error (.thrown "name must be string") := by
  unfold validateName
  rw [h]

theorem validateName_eq_file (fd : FormData) (h : fd.get "name" = some .file) :
    validateName fd = .error (.thrown "name must be string") := by
  unfold validateName
  rw [h]

theorem validateId_eq_text (fd : FormData) (s : String)
    (h : fd.get "id" = some (.text s)) :
    validateId fd =
      match parseInt10 s with
      | some intValue => .ok intValue
      | none => .error (.thrown "id must be numeric string") := by
  unfold validateId
  rw [h]

theorem validateId_eq_none (fd : FormData) (h : fd.get "id" = none) :
    validateId fd = .error (.thrown "id must be string") := by
  unfold validateId
  rw [h]

theorem validateId_eq_file (fd : FormData) (h : fd.get "id" = some .file) :
    validateId fd = .error (.thrown "id must be string") := by
  unfold validateId
  rw [h]

theorem validateName_error_msg (fd : FormData) (e : DispatchError) :
    validateName fd = .error e →
    e = .thrown "name must be string" ∨ e = .thrown "name must be at least 1 characters" := by
  intro h
  cases hg : fd.get "name" with
  | none =>
    rw [validateName_eq_none fd hg] at h
    injection h with h2
    exact Or.inl h2.symm
  | some v =>
    cases v with
    | text s =>
      rw [validateName_eq_text fd s hg] at h
      by_cases hl : s.length ≤ 0
      · rw [if_pos hl] at h
        injection h with h2
        exact Or.inr h2.symm
      · rw [if_neg hl] at h
        cases h
    | file =>
      rw [validateName_eq_file fd hg] at h
      injection h with h2
      exact Or.inl h2.symm

theorem validateId_error_msg (fd : FormData) (e : DispatchError) :
    validateId fd = .error e →
    e = .thrown "id must be string" ∨ e = .thrown "id must be numeric string" := by
  intro h
  cases hg : fd.get "id" with
  | none =>
    rw [validateId_eq_none fd hg] at h
    injection h with h2
    exact Or.inl h2.symm
  | some v =>
    cases v with
    | text s =>
      rw [validateId_eq_text fd s hg] at h
      cases hp : parseInt10 s with
      | none =>
        rw [hp] at h
        injection h with h2
        exact Or.inr h2.symm
      | some v =>
        rw [hp] at h
        cases h
    | file =>
      rw [validateId_eq_file fd hg] at h
      injection h with h2
      exact Or.inl h2.symm

theorem action_eq_text (fd : FormData) (s : Store) (a : String)
    (h : fd.get "action" = some (.text a)) :
    action fd s =
      (if a = "add" then do
        let name ← validateName fd
        Except.ok (createTask s name false)
      else if a = "update" then do
        let name ← validateName fd
        let i ← validateId fd
        updateTaskName s i name
      else if a = "done" ∨ a = "undone" then do
        let i ← validateId fd
        setTaskDone s i (a = "done")
      else if a = "delete" then do
        let i ← validateId fd
        deleteTask s i
      else .error (.thrown "unknown action")) := by
  unfold action
  rw [h]

theorem action_eq_none (fd : FormData) (s : Store) (h : fd.get "action" = none) :
    action fd s = .error (.thrown "unknown action") := by
  unfold action
  rw [h]

theorem action_eq_file (fd : FormData) (s : Store)
    (h : fd.get "action" = some .file) :
    action fd s = .error (.thrown "unknown action") := by
  unfold action
  rw [h]

theorem map_preserves_attr {α : Type} (g : Task → α) (f : Task → Task)
    (hf : ∀ t, g (f t) = g t) (l : List Task) :
    (l.map f).map g = l.map g := by
  induction l with
  | nil => rfl
  | cons t l ih => simp only [List.map_cons, hf, ih]

theorem any_id_map (f : Task → Task) (hf : ∀ t, (f t).id = t.id)
    (l : List Task) (i : Int) :
    (l.map f).any (fun t => t.id = i) = l.any (fun t => t.id = i) := by
  induction l with
  | nil => rfl
  | cons t l ih => simp only [List.map_cons, List.any_cons, hf, ih]

theorem mem_map_setDone (l : List Task) (i : Int) (b : Bool) (t : Task)
    (ht : t ∈ l.map (fun u => if u.id = i then { u with done := b } else u))
    (hid : t.id = i) : t.done = b := by
  rcases List.mem_map.mp ht with ⟨u, hu, he⟩
  by_cases h : u.id = i
  · rw [if_pos h] at he
    rw [← he]
  · rw [if_neg h] at he
    rw [← he] at hid
    exact absurd hid h

/-! ## Claim theorems -/

/-- C2 fails as stated: on the field map with no `name` entry at all,
`validateName` fails with the "name must be string" kind, not the
"name must be at least 1 characters" kind the claim requires for a
missing `name`. -/
theorem validateName_missing_counterexample :
    validateName ([] : FormData) = .error (.thrown "name must be string") ∧
    DispatchError.thrown "name must be string" ≠
      DispatchError.thrown "name must be at least 1 characters" := by
  exact ⟨rfl, by decide⟩

/-- C2 amended: for every field map whose `name` field is the empty
string, `validateName` fails with the "name must be at least 1
characters" kind; for every field map whose `name` field is missing or
present but not of text type, it fails with the "name must be string"
kind. -/
theorem validateName_kinds (fd : FormData) :
    (fd.get "name" = some (.text "") →
      validateName fd = .error (.thrown "name must be at least 1 characters")) ∧
    (fd.get "name" = none ∨ fd.get "name" = some .file →
      validateName fd = .error (.thrown "name must be string")) := by
  constructor
  · intro h
    rw [validateName_eq_text fd "" h]
    rfl
  · rintro (h | h)
    · exact validateName_eq_none fd h
    · exact validateName_eq_file fd h

/-- Witness for `validateName_kinds`: the empty-name map yields the
length error and the empty map yields the type error. -/
theorem validateName_kinds_witness :
    validateName [("name", FormValue.text "")] =
      .error (.thrown "name must be at least 1 characters") ∧
    validateName ([] : FormData) = .error (.thrown "name must be string") :=
  ⟨(validateName_kinds [("name", FormValue.text "")]).1 rfl,
   (validateName_kinds ([] : FormData)).2 (Or.inl rfl)⟩

/-- C3: for every field map whose `id` field is text that does not
parse under `parseInt(·, 10)` (no leading digit after optional
whitespace and sign, e.g. `"abc"`), `validateId` fails with the
"id must be numeric string" kind; and on the field map with
`id = "42"` it returns the integer `42`. -/
theorem validateId_kinds (fd : FormData) (s : String) :
    (fd.get "id" = some (.text s) → parseInt10 s = none →
      validateId fd = .error (.thrown "id must be numeric string")) ∧
    (fd.get "id" = some (.text "42") → validateId fd = .ok 42) := by
  constructor
  · intro h hp
    rw [validateId_eq_text fd s h, hp]
  · intro h
    rw [validateId_eq_text fd "42" h]
    rfl

/-- Witness for `validateId_kinds`: `id = "abc"` yields the numeric
error, `id = "42"` returns `42`. -/
theorem validateId_kinds_witness :
    validateId [("id", FormValue.text "abc")] =
      .error (.thrown "id must be numeric string") ∧
    validateId [("id", FormValue.text "42")] = .ok 42 :=
  ⟨(validateId_kinds [("id", FormValue.text "abc")] "abc").1 rfl rfl,
   (validateId_kinds [("id", FormValue.text "42")] "42").2 rfl⟩

/-- C9: on every field map whose `action` discriminator is missing,
file-valued, or text outside {add, update, done, undone, delete}, the
dispatcher fails with the "unknown action" error; since `action` only
produces a mutated store through `Except.ok`, the error result carries
zero store writes. -/
theorem unknown_action_rejected (fd : FormData) (s : Store)
    (h : ∀ v, fd.get "action" = some (.text v) →
      v ≠ "add" ∧ v ≠ "update" ∧ v ≠ "done" ∧ v ≠ "undone" ∧ v ≠ "delete") :
    action fd s = .error (.thrown "unknown action") := by
  cases hg : fd.get "action" with
  | none => exact action_eq_none fd s hg
  | some v =>
    cases v with
    | text a =>
      obtain ⟨h1, h2, h3, h4, h5⟩ := h a hg
      rw [action_eq_text fd s a hg, if_neg h1, if_neg h2,
        if_neg (not_or.mpr ⟨h3, h4⟩), if_neg h5]
    | file => exact action_eq_file fd s hg

/-- Witness for `unknown_action_rejected`: dispatching
`{action: "bogus"}` fails with the "unknown action" error. -/
theorem unknown_action_rejected_witness :
    action [("action", FormValue.text "bogus")] (Store.mk [] 1) =
      .error (.thrown "unknown action") := by
  apply unknown_action_rejected
  intro v hv
  have hv' : some (FormValue.text "bogus") = some (FormValue.text v) := by
    rw [← hv]; rfl
  injection hv' with h1
  injection h1 with h2
  subst h2
  exact ⟨by decide, by decide, by decide, by decide, by decide⟩

/-- C4: in every branch of the dispatcher, if validation of a required
field fails then the caller receives exactly that validation failure;
`action` yields a mutated store only through `Except.ok`, so on a
validation failure the store is untouched — validation precedes the
store call in every branch. -/
theorem validation_precedes_store (fd : FormData) (s : Store) (e : DispatchError)
    (h :
      (fd.get "action" = some (.text "add") ∧ validateName fd = .error e) ∨
      (fd.get "action" = some (.text "update") ∧ validateName fd = .error e) ∨
      (fd.get "action" = some (.text "update") ∧ (∃ n, validateName fd = .ok n) ∧
        validateId fd = .error e) ∨
      ((fd.get "action" = some (.text "done") ∨ fd.get "action" = some (.text "undone") ∨
        fd.get "action" = some (.text "delete")) ∧ validateId fd = .error e)) :
    action fd s = .error e := by
  rcases h with ⟨ha, hv⟩ | ⟨ha, hv⟩ | ⟨ha, ⟨n, hn⟩, hv⟩ | ⟨ha | ha | ha, hv⟩
  · rw [action_eq_text fd s "add" ha, if_pos rfl, hv, ebind_error]
  · rw [action_eq_text fd s "update" ha, if_neg (by decide), if_pos rfl, hv,
      ebind_error]
  · rw [action_eq_text fd s "update" ha, if_neg (by decide), if_pos rfl, hn,
      ebind_ok, hv, ebind_error]
  · rw [action_eq_text fd s "done" ha, if_neg (by decide), if_neg (by decide),
      if_pos (by decide), hv, ebind_error]
  · rw [action_eq_text fd s "undone" ha, if_neg (by decide), if_neg (by decide),
      if_pos (by decide), hv, ebind_error]
  · rw [action_eq_text fd s "delete" ha, if_neg (by decide), if_neg (by decide),
      if_neg (by decide), if_pos rfl, hv, ebind_error]

/-- Witness for `validation_precedes_store`: an `add` with no `name`
field returns the name validation failure and no mutated store. -/
theorem validation_precedes_store_witness :
    action [("action", FormValue.text "add")] (Store.mk [] 1) =
      .error (.thrown "name must be string") :=
  validation_precedes_store _ _ _ (Or.inl ⟨rfl, rfl⟩)

/-- C10: in the `update` branch the `data` object (hence `validateName`)
is evaluated before the `where` object (hence `validateId`); when both
fields are invalid the caller receives the name validation error, which
is never equal to the id validation error. -/
theorem update_name_validated_before_id (fd : FormData) (s : Store)
    (en ei : DispatchError)
    (ha : fd.get "action" = some (.text "update"))
    (hn : validateName fd = .error en)
    (hi : validateId fd = .error ei) :
    action fd s = .error en ∧ en ≠ ei := by
  constructor
  · rw [action_eq_text fd s "update" ha, if_neg (by decide), if_pos rfl, hn,
      ebind_error]
  · rcases validateName_error_msg fd en hn with h1 | h1 <;>
      rcases validateId_error_msg fd ei hi with h2 | h2 <;>
      (subst h1; subst h2; decide)

/-- Witness for `update_name_validated_before_id`: an `update` with no
`name` and no `id` field fails with the name error, not the id error. -/
theorem update_name_validated_before_id_witness :
    action [("action", FormValue.text "update")] (Store.mk [] 1) =
      .error (.thrown "name must be string") ∧
    DispatchError.thrown "name must be string" ≠
      DispatchError.thrown "id must be string" :=
  update_name_validated_before_id _ _ _ _ rfl rfl rfl

/-- C8: dispatching `add` with a validating name appends exactly one new
task (the rest of the list is unchanged), its `done` forced to `false`
and its `name` the validated name, and a subsequent full list read
(`listTasks`) includes it. -/
theorem add_creates_task (fd : FormData) (s : Store) (n : String)
    (ha : fd.get "action" = some (.text "add"))
    (hn : validateName fd = .ok n) :
    ∃ t : Task,
      action fd s = .ok { tasks := s.tasks ++ [t], nextId := s.nextId + 1 } ∧
      t.name = n ∧ t.done = false ∧
      t ∈ listTasks { tasks := s.tasks ++ [t], nextId := s.nextId + 1 } := by
  refine ⟨{ id := s.nextId, name := n, done := false }, ?_, rfl, rfl, ?_⟩
  · rw [action_eq_text fd s "add" ha, if_pos rfl, hn, ebind_ok]
    rfl
  · simp [listTasks]

/-- Witness for `add_creates_task`: `{action: "add", name: "Buy milk"}`
on the empty store creates the single task `Buy milk`, not done. -/
theorem add_creates_task_witness :
    ∃ t : Task,
      action [("action", FormValue.text "add"), ("name", FormValue.text "Buy milk")]
          (Store.mk [] 1) =
        .ok { tasks := [] ++ [t], nextId := 1 + 1 } ∧
      t.name = "Buy milk" ∧ t.done = false ∧
      t ∈ listTasks { tasks := [] ++ [t], nextId := 1 + 1 } :=
  add_creates_task _ _ "Buy milk" rfl rfl

/-- C6: dispatching `update` with a validating id and name on a store
containing that id replaces only the named task's `name`: every task's
`id` and `done` are unchanged and every task with a different id is
kept as-is. -/
theorem update_replaces_only_name (fd : FormData) (s : Store) (i : Int) (n : String)
    (ha : fd.get "action" = some (.text "update"))
    (hi : validateId fd = .ok i)
    (hn : validateName fd = .ok n)
    (hex : s.tasks.any (fun t => t.id = i) = true) :
    ∃ s' : Store,
      action fd s = .ok s' ∧
      s'.tasks = s.tasks.map (fun t => if t.id = i then { t with name := n } else t) ∧
      s'.tasks.map Task.id = s.tasks.map Task.id ∧
      s'.tasks.map Task.done = s.tasks.map Task.done ∧
      ∀ t ∈ s.tasks, ¬ t.id = i → t ∈ s'.tasks := by
  refine ⟨{ s with
      tasks := s.tasks.map (fun t => if t.id = i then { t with name := n } else t) },
    ?_, rfl, ?_, ?_, ?_⟩
  · rw [action_eq_text fd s "update" ha, if_neg (by decide), if_pos rfl, hn,
      ebind_ok, hi, ebind_ok]
    unfold updateTaskName
    rw [if_pos hex]
  · refine map_preserves_attr Task.id _ (fun t => ?_) s.tasks
    by_cases h : t.id = i
    · rw [if_pos h]
    · rw [if_neg h]
  · refine map_preserves_attr Task.done _ (fun t => ?_) s.tasks
    by_cases h : t.id = i
    · rw [if_pos h]
    · rw [if_neg h]
  · intro t ht hne
    have hft : (if t.id = i then { t with name := n } else t) = t := if_neg hne
    rw [← hft]
    exact List.mem_map_of_mem _ ht

/-- Witness for `update_replaces_only_name`: renaming task 1 to `"b"` in
a two-task store changes only task 1's name. -/
theorem update_replaces_only_name_witness :
    ∃ s' : Store,
      action [("action", FormValue.text "update"), ("id", FormValue.text "1"),
          ("name", FormValue.text "b")]
        (Store.mk [Task.mk 1 "a" true, Task.mk 2 "c" false] 3) = .ok s' ∧
      s'.tasks = [Task.mk 1 "a" true, Task.mk 2 "c" false].map
        (fun t => if t.id = 1 then { t with name := "b" } else t) ∧
      s'.tasks.map Task.id =
        [Task.mk 1 "a" true, Task.mk 2 "c" false].map Task.id ∧
      s'.tasks.map Task.done =
        [Task.mk 1 "a" true, Task.mk 2 "c" false].map Task.done ∧
      ∀ t ∈ [Task.mk 1 "a" true, Task.mk 2 "c" false], ¬ t.id = 1 → t ∈ s'.tasks :=
  update_replaces_only_name _ _ 1 "b" rfl rfl rfl (by decide)

/-- C7: for an id present in the store, dispatching `done` and then
`undone` with that id succeeds, leaves every task's name (in
particular that task's) as before the pair, and leaves that task's
`done` flag false. -/
theorem done_then_undone (s : Store) (str : String) (i : Int)
    (hi : parseInt10 str = some i)
    (hex : s.tasks.any (fun t => t.id = i) = true) :
    ∃ s₁ s₂ : Store,
      action [("action", FormValue.text "done"), ("id", FormValue.text str)] s =
        .ok s₁ ∧
      action [("action", FormValue.text "undone"), ("id", FormValue.text str)] s₁ =
        .ok s₂ ∧
      s₂.tasks.map Task.name = s.tasks.map Task.name ∧
      ∀ t ∈ s₂.tasks, t.id = i → t.done = false := by
  have hv1 : validateId
      [("action", FormValue.text "done"), ("id", FormValue.text str)] = .ok i := by
    rw [validateId_eq_text
      [("action", FormValue.text "done"), ("id", FormValue.text str)] str rfl, hi]
  have hv2 : validateId
      [("action", FormValue.text "undone"), ("id", FormValue.text str)] = .ok i := by
    rw [validateId_eq_text
      [("action", FormValue.text "undone"), ("id", FormValue.text str)] str rfl, hi]
  have hidpres : ∀ (b : Bool) (t : Task),
      (if t.id = i then { t with done := b } else t).id = t.id := by
    intro b t
    by_cases h : t.id = i
    · rw [if_pos h]
    · rw [if_neg h]
  have hnamepres : ∀ (b : Bool) (t : Task),
      (if t.id = i then { t with done := b } else t).name = t.name := by
    intro b t
    by_cases h : t.id = i
    · rw [if_pos h]
    · rw [if_neg h]
  refine ⟨{ s with
      tasks := s.tasks.map (fun t => if t.id = i then { t with done := true } else t) },
    { s with
      tasks := (s.tasks.map (fun t => if t.id = i then { t with done := true } else t)).map
        (fun t => if t.id = i then { t with done := false } else t) },
    ?_, ?_, ?_, ?_⟩
  · rw [action_eq_text
        [("action", FormValue.text "done"), ("id", FormValue.text str)] s "done" rfl,
      if_neg (by decide), if_neg (by decide), if_pos (by decide), hv1, ebind_ok]
    unfold setTaskDone
    rw [if_pos hex]
    rfl
  · have hex1 : (s.tasks.map
        (fun t => if t.id = i then { t with done := true } else t)).any
        (fun t => t.id = i) = true := by
      rw [any_id_map _ (hidpres true) s.tasks i]
      exact hex
    rw [action_eq_text
        [("action", FormValue.text "undone"), ("id", FormValue.text str)] _ "undone" rfl,
      if_neg (by decide), if_neg (by decide), if_pos (by decide), hv2, ebind_ok]
    unfold setTaskDone
    rw [if_pos hex1]
    rfl
  · rw [map_preserves_attr Task.name _ (hnamepres false),
      map_preserves_attr Task.name _ (hnamepres true)]
  · intro t ht hid
    exact mem_map_setDone _ i false t ht hid

/-- Witness for `done_then_undone`: marking task 1 done then undone in a
one-task store keeps its name `"a"` and ends with `done = false`. -/
theorem done_then_undone_witness :
    ∃ s₁ s₂ : Store,
      action [("action", FormValue.text "done"), ("id", FormValue.text "1")]
        (Store.mk [Task.mk 1 "a" false] 2) = .ok s₁ ∧
      action [("action", FormValue.text "undone"), ("id", FormValue.text "1")] s₁ =
        .ok s₂ ∧
      s₂.tasks.map Task.name = [Task.mk 1 "a" false].map Task.name ∧
      ∀ t ∈ s₂.tasks, t.id = 1 → t.done = false :=
  done_then_undone (Store.mk [Task.mk 1 "a" false] 2) "1" 1 rfl (by decide)

theorem step_startEditing (cs : ClientState) (i : Int) :
    step cs (.startEditing i) =
      if isPending cs i then cs else { cs with editingId := some i } := rfl

theorem step_cancel (cs : ClientState) (i : Int) :
    step cs (.cancel i) =
      if isPending cs i then cs else { cs with editingId := none } := rfl

theorem step_submit (cs : ClientState) (i : Int) :
    step cs (.submit i) =
      if isPending cs i then cs else { cs with pending := i :: cs.pending } := rfl

theorem step_resolve (cs : ClientState) (i : Int) :
    step cs (.resolve i) =
      if isPending cs i then
        { editingId := none, pending := cs.pending.filter (fun j => ¬ j = i) }
      else cs := rfl

/-- C5: in every client state at most one row is editing, because
`editing` means equality with the single `editingId`; and when row `a`
(not pending) enters Editing while row `b` is editing, row `a` becomes
the editing row and row `b` stops editing. -/
theorem editing_globally_exclusive (cs : ClientState) (a b : Int) (hab : a ≠ b) :
    ¬ (isEditing cs a = true ∧ isEditing cs b = true) ∧
    (isPending cs a = false → isEditing cs b = true →
      isEditing (step cs (.startEditing a)) a = true ∧
      isEditing (step cs (.startEditing a)) b = false) := by
  constructor
  · rintro ⟨h1, h2⟩
    simp only [isEditing, decide_eq_true_eq] at h1 h2
    rw [h1] at h2
    injection h2 with h3
    exact hab h3
  · intro hp _
    have hs : step cs (.startEditing a) = { cs with editingId := some a } := by
      rw [step_startEditing, if_neg (by rw [hp]; exact Bool.false_ne_true)]
    rw [hs]
    constructor
    · simp [isEditing]
    · simp only [isEditing, decide_eq_false_iff_not]
      intro h
      injection h with h3
      exact hab h3

/-- Witness for `editing_globally_exclusive`: with row 2 editing and
row 1 idle, rows 1 and 2 are not both editing, and row 1 entering
Editing makes row 1 editing and row 2 not. -/
theorem editing_globally_exclusive_witness :
    ¬ (isEditing (ClientState.mk (some 2) []) 1 = true ∧
      isEditing (ClientState.mk (some 2) []) 2 = true) ∧
    (isPending (ClientState.mk (some 2) []) 1 = false →
      isEditing (ClientState.mk (some 2) []) 2 = true →
      isEditing (step (ClientState.mk (some 2) []) (.startEditing 1)) 1 = true ∧
      isEditing (step (ClientState.mk (some 2) []) (.startEditing 1)) 2 = false) :=
  editing_globally_exclusive (ClientState.mk (some 2) []) 1 2 (by decide)

/-- C1 fails as stated: in the reachable state where row 1 is editing
and row 2 has an in-flight mutation (reached from the initial state by
row 1 entering Editing and row 2 submitting), row 2's mutation
resolving exits row 1's Editing state, yet that event is none of the
three the claim allows (a cancel, the resolution of row 1's own
mutation, or another row entering Editing). -/
theorem editing_exit_counterexample :
    step (step (ClientState.mk none []) (.startEditing 1)) (.submit 2) =
      ClientState.mk (some 1) [2] ∧
    isEditing (ClientState.mk (some 1) [2]) 1 = true ∧
    isEditing (step (ClientState.mk (some 1) [2]) (.resolve 2)) 1 = false ∧
    claimedExitEvent 1 (.resolve 2) = false := by
  decide

/-- C1 amended: a row's Editing state is exited only by an explicit
cancel, by the resolution of ANY row's in-flight mutation (the effect
clears the global editing id whichever row resolved, not only the
editing row itself), or by a different row entering Editing. -/
theorem editing_exit_events (cs : ClientState) (e : Event) (r : Int)
    (h1 : isEditing cs r = true) (h2 : isEditing (step cs e) r = false) :
    (∃ j, e = .cancel j) ∨ (∃ j, e = .resolve j) ∨
    (∃ j, e = .startEditing j ∧ j ≠ r) := by
  cases e with
  | cancel j => exact Or.inl ⟨j, rfl⟩
  | resolve j => exact Or.inr (Or.inl ⟨j, rfl⟩)
  | submit j =>
    exfalso
    by_cases hp : isPending cs j
    · rw [step_submit, if_pos hp] at h2
      rw [h1] at h2
      cases h2
    · rw [step_submit, if_neg hp] at h2
      simp only [isEditing] at h1 h2
      rw [h1] at h2
      cases h2
  | startEditing j =>
    refine Or.inr (Or.inr ⟨j, rfl, ?_⟩)
    by_cases hp : isPending cs j
    · exfalso
      rw [step_startEditing, if_pos hp] at h2
      rw [h1] at h2
      cases h2
    · intro hjr
      subst hjr
      rw [step_startEditing, if_neg hp] at h2
      simp [isEditing] at h2

/-- Witness for `editing_exit_events`: in the state with row 1 editing
and row 2 pending, row 2's resolution exits row 1's Editing, and the
event is the resolution of some row's mutation. -/
theorem editing_exit_events_witness :
    (∃ j, Event.resolve 2 = Event.cancel j) ∨
    (∃ j, Event.resolve 2 = Event.resolve j) ∨
    (∃ j, Event.resolve 2 = Event.startEditing j ∧ j ≠ 1) :=
  editing_exit_events (ClientState.mk (some 1) [2]) (.resolve 2) 1
    (by decide) (by decide)

end RemixTodo
